import Mathlib

/-!
Verification of the GriPro orchestrator specification against the
repository's sources.  The frontend TypeScript (types, hooks, components)
is embedded directly; the orchestration engine itself (scheduler, trigger
engine, knowledge-refresh scheduler, correction protocol, capability
router) exists in the repository only as design documents and prompts, so
those parts are modelled from the spec, as noted on each definition.
-/

namespace GriPro

/-! ## Frontend data types (from the TypeScript `types` module) -/

/-- `ProjectStatus` union type from the frontend types module:
`"discovery" | "design" | "implementation" | "validation" | "operation" | "completed" | "paused"`. -/
inductive ProjectStatus
  | discovery
  | design
  | implementation
  | validation
  | operation
  | completed
  | paused
deriving DecidableEq, Repr

/-- The string literal a `ProjectStatus` value denotes in the source. -/
def ProjectStatus.name : ProjectStatus → String
  | .discovery => "discovery"
  | .design => "design"
  | .implementation => "implementation"
  | .validation => "validation"
  | .operation => "operation"
  | .completed => "completed"
  | .paused => "paused"

/-- All `ProjectStatus` values, in source order. -/
def allProjectStatuses : List ProjectStatus :=
  [.discovery, .design, .implementation, .validation, .operation, .completed, .paused]

/-- `AgentStatus` union type: `"idle" | "working" | "completed" | "blocked"`. -/
inductive AgentStatus
  | idle
  | working
  | completed
  | blocked
deriving DecidableEq, Repr

/-- `WSMessage["type"]` union from the frontend types module:
`"state_update" | "agent_status" | "activity_new" | "chat_message" | "connected" | "ping" | "pong"`. -/
inductive WSMessageType
  | state_update
  | agent_status
  | activity_new
  | chat_message
  | connected
  | ping
  | pong
deriving DecidableEq, Repr

/-- The string literal a `WSMessageType` value denotes in the source. -/
def WSMessageType.name : WSMessageType → String
  | .state_update => "state_update"
  | .agent_status => "agent_status"
  | .activity_new => "activity_new"
  | .chat_message => "chat_message"
  | .connected => "connected"
  | .ping => "ping"
  | .pong => "pong"

/-- All `WSMessageType` values, in source order. -/
def allWSMessageTypes : List WSMessageType :=
  [.state_update, .agent_status, .activity_new, .chat_message, .connected, .ping, .pong]

/-- `WSMessage` interface: `type`, `data: Record<string, unknown>`,
optional `timestamp`.  The record payload is abstracted as key/value pairs. -/
structure WSMessage where
  type : WSMessageType
  data : List (String × String)
  timestamp : Option String
deriving DecidableEq, Repr

/-- `AgentInfo` interface from the frontend types module. -/
structure AgentInfo where
  name : String
  agentAlias : String
  status : AgentStatus
  current_task : Option String
  progress : Nat
  last_activity : Option String
deriving DecidableEq, Repr

/-- `ActivityItem["category"]` union:
`"code" | "review" | "deployment" | "communication"`. -/
inductive ActivityCategory
  | code
  | review
  | deployment
  | communication
deriving DecidableEq, Repr

/-- `ActivityItem` interface from the frontend types module
(the optional `metadata` record is abstracted away). -/
structure ActivityItem where
  id : String
  timestamp : String
  agent : String
  action : String
  description : String
  category : ActivityCategory
deriving DecidableEq, Repr

/-- `ActivitiesResponse` interface from the frontend types module. -/
structure ActivitiesResponse where
  items : List ActivityItem
  total : Nat
  offset : Nat
  limit : Nat
  has_more : Bool
deriving DecidableEq, Repr

/-- `MessageRole` union type: `"user" | "assistant" | "system"`. -/
inductive MessageRole
  | user
  | assistant
  | system
deriving DecidableEq, Repr

/-- `ChatMessage` interface (optional `metadata` abstracted away). -/
structure ChatMessage where
  id : String
  role : MessageRole
  content : String
  timestamp : String
deriving DecidableEq, Repr

/-- `ChatResponse` interface: `message`, `timestamp`, optional
`suggestions` (attachments abstracted away). -/
structure ChatResponse where
  message : String
  timestamp : String
  suggestions : Option (List String)
deriving DecidableEq, Repr

/-! ## Frontend operations (from the hooks and components) -/

/-- `AgentGrid`'s `visibleDepartments`: the agents array filtered by
`(agent) => !["primo", "guru_supervisor"].includes(agent.name)`. -/
def visibleDepartments (agents : List AgentInfo) : List AgentInfo :=
  agents.filter (fun agent => !((["primo", "guru_supervisor"] : List String).contains agent.name))

/-- `useProject`'s `loadMoreActivities`.  The `api.getProjectActivities`
call is passed in as `fetch : limit → offset → Except error response`; an
exception corresponds to a rejected promise (caught and logged, state
unchanged).  The returned `Bool` records whether a request was made. -/
def loadMoreActivities (activities : Option ActivitiesResponse)
    (fetch : Nat → Nat → Except String ActivitiesResponse) :
    Bool × Option ActivitiesResponse :=
  match activities with
  | none => (false, none)
  | some a =>
    if !a.has_more then (false, some a)
    else
      match fetch 10 (a.offset + a.limit) with
      | .ok moreActivities => (true, some { moreActivities with items := a.items ++ moreActivities.items })
      | .error _ => (true, some a)

/-- JavaScript's `String.prototype.trim`: strip whitespace from both
ends (defined structurally over the character list so that it evaluates
by kernel reduction). -/
def jsTrim (s : String) : String :=
  String.mk (((s.data.dropWhile Char.isWhitespace).reverse.dropWhile
    Char.isWhitespace).reverse)

/-- The state held by `useChat` that `sendMessage` touches. -/
structure ChatState where
  messages : List ChatMessage
  isSending : Bool
  suggestions : List String
  error : Option String
deriving DecidableEq, Repr

/-- `useChat`'s `sendMessage`.  `now` stands for `Date.now()` (also used
for the ISO timestamp), and `apiResult` for the settled
`api.sendMessage` promise: on rejection the caught error message is the
`.error` payload.  Mirrors the source: early return when `projectId` is
null or the message trims to empty; optimistic append of the user
message with id `temp-${Date.now()}`; on success append the assistant
message and set suggestions; on failure set `error` and remove messages
whose id equals the temp id. -/
def sendMessage (projectId : Option String) (message : String) (now : Nat)
    (apiResult : Except String ChatResponse) (s : ChatState) : ChatState :=
  if projectId.isNone || jsTrim message == "" then s
  else
    let userMessage : ChatMessage :=
      { id := "temp-" ++ toString now, role := .user, content := message,
        timestamp := toString now }
    let s1 : ChatState :=
      { s with messages := s.messages ++ [userMessage], isSending := true, error := none }
    match apiResult with
    | .ok response =>
      let assistantMessage : ChatMessage :=
        { id := "msg-" ++ toString now, role := .assistant, content := response.message,
          timestamp := response.timestamp }
      { s1 with messages := s1.messages ++ [assistantMessage],
                suggestions := response.suggestions.getD [], isSending := false }
    | .error e =>
      { s1 with error := some e,
                messages := s1.messages.filter (fun m => m.id != userMessage.id),
                isSending := false }

/-! ## Execution scheduler (modelled from the spec) -/

/-- Task lifecycle states of the execution scheduler (spec §3/§4.3). -/
inductive TaskState
  | pending
  | ready
  | assigned
  | in_progress
  | blocked
  | completed
  | failed
  | failed_permanent
  | cancelled
deriving DecidableEq, Repr

/-- Pointwise update of a task-state assignment. -/
def updateState (σ : Nat → TaskState) (t : Nat) (s : TaskState) : Nat → TaskState :=
  fun u => if u = t then s else σ u

/-- Modelled from the spec: the repository ships no scheduler code, only
the design documents, so the per-task transition relation of §4.3 is
taken from the spec.  `deps` is the fixed dependency set of the task
graph; a task may enter `ready` (from `pending`, from `blocked` once the
blocking condition clears, or from `failed` on a retry) only when every
dependency is `completed`; `completed` is terminal. -/
inductive SchedStep (deps : Nat → List Nat) : (Nat → TaskState) → (Nat → TaskState) → Prop
  | toReady (σ : Nat → TaskState) (t : Nat) :
      σ t = .pending → (∀ d ∈ deps t, σ d = .completed) →
      SchedStep deps σ (updateState σ t .ready)
  | assign (σ : Nat → TaskState) (t : Nat) :
      σ t = .ready → SchedStep deps σ (updateState σ t .assigned)
  | start (σ : Nat → TaskState) (t : Nat) :
      σ t = .assigned → SchedStep deps σ (updateState σ t .in_progress)
  | complete (σ : Nat → TaskState) (t : Nat) :
      σ t = .in_progress → SchedStep deps σ (updateState σ t .completed)
  | fail (σ : Nat → TaskState) (t : Nat) :
      σ t = .in_progress → SchedStep deps σ (updateState σ t .failed)
  | block (σ : Nat → TaskState) (t : Nat) :
      σ t = .in_progress → SchedStep deps σ (updateState σ t .blocked)
  | unblock (σ : Nat → TaskState) (t : Nat) :
      σ t = .blocked → (∀ d ∈ deps t, σ d = .completed) →
      SchedStep deps σ (updateState σ t .ready)
  | retry (σ : Nat → TaskState) (t : Nat) :
      σ t = .failed → (∀ d ∈ deps t, σ d = .completed) →
      SchedStep deps σ (updateState σ t .ready)
  | failPermanent (σ : Nat → TaskState) (t : Nat) :
      σ t = .failed → SchedStep deps σ (updateState σ t .failed_permanent)
  | cancelPending (σ : Nat → TaskState) (t : Nat) :
      σ t = .pending → SchedStep deps σ (updateState σ t .cancelled)
  | cancelReady (σ : Nat → TaskState) (t : Nat) :
      σ t = .ready → SchedStep deps σ (updateState σ t .cancelled)
  | cancelInProgress (σ : Nat → TaskState) (t : Nat) :
      σ t = .in_progress → SchedStep deps σ (updateState σ t .cancelled)

/-- The ready-implies-dependencies-completed invariant (spec §3, §8). -/
def readyInv (deps : Nat → List Nat) (σ : Nat → TaskState) : Prop :=
  ∀ t, σ t = .ready → ∀ d ∈ deps t, σ d = .completed

/-- The all-`pending` initial assignment of a freshly built task graph. -/
def initialTasks : Nat → TaskState := fun _ => .pending

lemma readyInv_updateState {deps : Nat → List Nat} {σ : Nat → TaskState}
    {t₀ : Nat} {s₀ : TaskState}
    (h : readyInv deps σ) (hsrc : σ t₀ ≠ .completed)
    (hnew : s₀ = .ready → ∀ d ∈ deps t₀, σ d = .completed) :
    readyInv deps (updateState σ t₀ s₀) := by
  intro t ht d hd
  unfold updateState at ht ⊢
  by_cases htt : t = t₀
  · rw [if_pos htt] at ht
    have hdeps : σ d = .completed := hnew ht d (htt ▸ hd)
    by_cases hdt : d = t₀
    · exact absurd (hdt ▸ hdeps) hsrc
    · rw [if_neg hdt]; exact hdeps
  · rw [if_neg htt] at ht
    have hdeps : σ d = .completed := h t ht d hd
    by_cases hdt : d = t₀
    · exact absurd (hdt ▸ hdeps) hsrc
    · rw [if_neg hdt]; exact hdeps

lemma readyInv_step {deps : Nat → List Nat} {σ σ' : Nat → TaskState}
    (hstep : SchedStep deps σ σ') (h : readyInv deps σ) : readyInv deps σ' := by
  cases hstep with
  | toReady t hs hd =>
      exact readyInv_updateState h (by simp [hs]) (fun _ => hd)
  | assign t hs => exact readyInv_updateState h (by simp [hs]) (by simp)
  | start t hs => exact readyInv_updateState h (by simp [hs]) (by simp)
  | complete t hs => exact readyInv_updateState h (by simp [hs]) (by simp)
  | fail t hs => exact readyInv_updateState h (by simp [hs]) (by simp)
  | block t hs => exact readyInv_updateState h (by simp [hs]) (by simp)
  | unblock t hs hd =>
      exact readyInv_updateState h (by simp [hs]) (fun _ => hd)
  | retry t hs hd =>
      exact readyInv_updateState h (by simp [hs]) (fun _ => hd)
  | failPermanent t hs => exact readyInv_updateState h (by simp [hs]) (by simp)
  | cancelPending t hs => exact readyInv_updateState h (by simp [hs]) (by simp)
  | cancelReady t hs => exact readyInv_updateState h (by simp [hs]) (by simp)
  | cancelInProgress t hs => exact readyInv_updateState h (by simp [hs]) (by simp)

/-! ## Correction protocol (modelled from the spec) -/

/-- `CorrectionRequest` states (spec §3/§4.7). -/
inductive CorrectionState
  | proposed
  | confirmed
  | rejected
  | applied
deriving DecidableEq, Repr

/-- Modelled from the spec: the repository describes the confirmation
protocol only in the coordinator prompt ("SIEMPRE pedir CONFIRMACION
explicita"; only an explicit confirmation lets a change be implemented),
with no session-manager code.  A configuration pairs the request state
with the task graph `G`; the only transitions are proposed→confirmed,
proposed→rejected (both leaving the graph untouched) and
confirmed→applied (which may mutate the graph). -/
inductive CorrectionStep {G : Type} : CorrectionState × G → CorrectionState × G → Prop
  | confirm (g : G) : CorrectionStep (.proposed, g) (.confirmed, g)
  | reject (g : G) : CorrectionStep (.proposed, g) (.rejected, g)
  | applyChange (g g' : G) : CorrectionStep (.confirmed, g) (.applied, g')

/-! ## Capability / backend routing -/

/-- The `llm_router` task_type → provider table, verbatim from the
implementation guide (`core/llm_router.py` routing dict). -/
def llmRouterMap : String → Option String := fun task_type =>
  if task_type == "code_generation" then some "claude"
  else if task_type == "qa_testing" then some "gemini"
  else if task_type == "content_writing" then some "gemini"
  else if task_type == "analysis" then some "claude"
  else if task_type == "security" then some "claude"
  else if task_type == "deployment" then some "gemini"
  else none

/-- Worker availability states (spec §3). -/
inductive Availability
  | idle
  | busy
  | unavailable
deriving DecidableEq, Repr

/-- A worker record: id, capability set, availability (spec §3). -/
structure Worker where
  id : Nat
  capabilities : List String
  availability : Availability
deriving DecidableEq, Repr

/-- Workers able and available to take a task with the given tag, in
catalog order. -/
def candidatesFor (tag : String) (workers : List Worker) : List Nat :=
  (workers.filter (fun w => w.capabilities.contains tag && (w.availability == .idle))).map
    (fun w => w.id)

/-- Modelled from the spec: no router code ships beyond the
`llm_router` table, so `resolve` follows §4.2 — walk the task's
capability tags from most specific to most general until some tag has
matching available workers, returning that ranked candidate list. -/
def resolve (tags : List String) (workers : List Worker) : List Nat :=
  match tags with
  | [] => []
  | tag :: rest =>
    let cands := candidatesFor tag workers
    if cands.isEmpty then resolve rest workers else cands

/-! ## Knowledge refresh rotation (modelled from the spec) -/

/-- The four refresh domains of the 15-day rotation cycle, from the
knowledge supervisor's README (Frontend, Backend, QA/DevOps,
Docs/Marketing). -/
def guruDomains : List String :=
  ["frontend", "backend", "qa_devops", "docs_marketing"]

/-- Modelled from the spec: the rotation scheduler is described but not
implemented, so a tick processes exactly the domain at the current
`RotationCursor` position and advances the cursor modulo the domain
count (spec §4.5). -/
def tick (domains : List String) (cursor : Nat) : Nat × Option String :=
  ((cursor + 1) % domains.length, domains.get? cursor)

/-- Cursor value after `k` ticks starting from `cursor`, over `n` domains. -/
def cursorIter (n : Nat) (cursor : Nat) : Nat → Nat
  | 0 => cursor
  | k + 1 => (cursorIter n cursor k + 1) % n

/-- Domain processed at the `k`-th interval boundary after a state with
cursor `cursor`. -/
def processedAt (domains : List String) (cursor k : Nat) : Option String :=
  domains.get? (cursorIter domains.length cursor k)

lemma cursorIter_eq_mod {n : Nat} (c : Nat) (hc : c < n) :
    ∀ k, cursorIter n c k = (c + k) % n := by
  intro k
  induction k with
  | zero => simpa [cursorIter] using (Nat.mod_eq_of_lt hc).symm
  | succ k ih =>
      show (cursorIter n c k + 1) % n = (c + (k + 1)) % n
      rw [ih, Nat.mod_add_mod, Nat.add_assoc]

/-! ## Trigger & escalation engine (modelled from the spec) -/

/-- A trigger rule: id, severity, dedup window (spec §3; the sliding
window predicate itself is external — a "qualifying trigger condition"
is a match event handed to the engine). -/
structure TriggerRule where
  id : Nat
  severity : Nat
  dedup_window : Nat
deriving DecidableEq, Repr

/-- A `TriggerEvent` record (spec §3). -/
structure TriggerEvent where
  rule_id : Nat
  project_id : Nat
  first_seen : Nat
  last_seen : Nat
  occurrence_count : Nat
  resolved : Bool
deriving DecidableEq, Repr

/-- Does `e` count as an open unresolved event for `(project, rule)`
within the dedup window at time `now`? -/
def matchesOpen (rule : TriggerRule) (project now : Nat) (e : TriggerEvent) : Bool :=
  e.rule_id == rule.id && e.project_id == project && !e.resolved &&
    now ≤ e.last_seen + rule.dedup_window

/-- Increment the first open matching event, if any. -/
def bumpFirst (rule : TriggerRule) (project now : Nat) :
    List TriggerEvent → Option (List TriggerEvent)
  | [] => none
  | e :: es =>
    if matchesOpen rule project now e then
      some ({ e with occurrence_count := e.occurrence_count + 1, last_seen := now } :: es)
    else
      (bumpFirst rule project now es).map (fun es' => e :: es')

/-- Modelled from the spec: the trigger engine exists only as detection
patterns in the supervisor prompt, so §4.4 is taken from the spec.  On a
rule match at time `now`, look up an open unresolved `TriggerEvent` for
`(project_id, rule_id)` within the dedup window: if present, increment
`occurrence_count` and extend `last_seen` emitting no notification;
otherwise create a new `TriggerEvent` and emit exactly one escalation
notification.  Returns the events plus the number of notifications
emitted (0 or 1). -/
def processMatch (rule : TriggerRule) (project now : Nat) (events : List TriggerEvent) :
    List TriggerEvent × Nat :=
  match bumpFirst rule project now events with
  | some events' => (events', 0)
  | none =>
    (events ++ [{ rule_id := rule.id, project_id := project, first_seen := now,
                  last_seen := now, occurrence_count := 1, resolved := false }], 1)

/-- Feed a sequence of match times through the engine, accumulating the
total number of notifications emitted. -/
def processAll (rule : TriggerRule) (project : Nat) (times : List Nat)
    (st : List TriggerEvent × Nat) : List TriggerEvent × Nat :=
  times.foldl
    (fun acc t =>
      let r := processMatch rule project t acc.1
      (r.1, acc.2 + r.2))
    st

/-- Each listed time lies within `w` of its predecessor (the first
within `w` of `l`). -/
def chainedWithin (w : Nat) : Nat → List Nat → Prop
  | _, [] => True
  | l, t :: ts => t ≤ l + w ∧ chainedWithin w t ts

instance (w l : Nat) (ts : List Nat) : Decidable (chainedWithin w l ts) := by
  induction ts generalizing l with
  | nil => exact .isTrue trivial
  | cons t ts ih => exact @instDecidableAnd _ _ _ (ih t)

/-- Last element of `ts`, defaulting to `l`. -/
def lastTime (l : Nat) (ts : List Nat) : Nat :=
  ts.foldl (fun _ t => t) l

lemma processAll_single_event (rule : TriggerRule) (project : Nat) :
    ∀ (ts : List Nat) (f l c n : Nat),
      chainedWithin rule.dedup_window l ts →
      processAll rule project ts
        ([{ rule_id := rule.id, project_id := project, first_seen := f,
            last_seen := l, occurrence_count := c, resolved := false }], n) =
      ([{ rule_id := rule.id, project_id := project, first_seen := f,
          last_seen := lastTime l ts, occurrence_count := c + ts.length,
          resolved := false }], n) := by
  intro ts
  induction ts with
  | nil => intro f l c n _; simp [processAll, lastTime]
  | cons t ts ih =>
      intro f l c n hch
      obtain ⟨hlt, hch'⟩ := hch
      have hmatch : matchesOpen rule project t
          { rule_id := rule.id, project_id := project, first_seen := f,
            last_seen := l, occurrence_count := c, resolved := false } = true := by
        simp [matchesOpen, hlt]
      have hstep : processMatch rule project t
          [{ rule_id := rule.id, project_id := project, first_seen := f,
             last_seen := l, occurrence_count := c, resolved := false }] =
          ([{ rule_id := rule.id, project_id := project, first_seen := f,
              last_seen := t, occurrence_count := c + 1, resolved := false }], 0) := by
        simp [processMatch, bumpFirst, hmatch]
      have hfold : processAll rule project (t :: ts)
            ([{ rule_id := rule.id, project_id := project, first_seen := f,
                last_seen := l, occurrence_count := c, resolved := false }], n) =
          processAll rule project ts
            ([{ rule_id := rule.id, project_id := project, first_seen := f,
                last_seen := t, occurrence_count := c + 1, resolved := false }], n) := by
        simp [processAll, hstep]
      rw [hfold, ih f t (c + 1) n hch']
      simp [lastTime, Nat.add_assoc, Nat.add_comm 1 ts.length]

/-! ## Claim theorems -/

/-- C1: in every scheduler state reachable from a state satisfying the
ready-invariant (in particular from the all-pending initial task graph),
every `ready` task has all of its dependencies `completed` — a task
enters `ready` only when every dependency is completed. -/
theorem ready_implies_deps_completed (deps : Nat → List Nat)
    (σ₀ σ : Nat → TaskState) (h₀ : readyInv deps σ₀)
    (hreach : Relation.ReflTransGen (SchedStep deps) σ₀ σ) :
    readyInv deps σ := by
  induction hreach with
  | refl => exact h₀
  | tail _ hstep ih => exact readyInv_step hstep ih

theorem ready_implies_deps_completed_witness :
    readyInv (fun _ => []) (updateState initialTasks 0 .ready) :=
  ready_implies_deps_completed (fun _ => []) initialTasks
    (updateState initialTasks 0 .ready)
    (fun _ ht => absurd ht (by simp [initialTasks]))
    (Relation.ReflTransGen.single
      (SchedStep.toReady initialTasks 0 rfl (by simp)))

/-- C2 counterexample: `trigger_raised` is not among the `WSMessage`
types of the frontend event feed (and `WSMessage` records carry no
`sequence_no` or `project_id` field). -/
theorem trigger_raised_not_a_ws_type :
    "trigger_raised" ∉ allWSMessageTypes.map WSMessageType.name := by
  decide

/-- C2 (amended): every outbound feed record's type is drawn from
{state_update, agent_status, activity_new, chat_message} plus the
transport keep-alive types connected/ping/pong; `trigger_raised` is not
among them, and the record shape is `{type, data, timestamp?}` with no
sequence_no or project_id. -/
theorem wsMessage_types_complete (m : WSMessage) :
    m.type ∈ allWSMessageTypes ∧
    m.type.name ∈ ["state_update", "agent_status", "activity_new", "chat_message",
                   "connected", "ping", "pong"] := by
  cases m with
  | mk t d ts => cases t <;> simp [allWSMessageTypes, WSMessageType.name]

/-- C3 counterexample: `design` is a `ProjectStatus` of the code whose
name lies outside the spec's seven-value set (and `planning`,
`execution`, `documentation`, `deployed` are not statuses at all). -/
theorem design_status_outside_spec_set :
    ProjectStatus.design ∈ allProjectStatuses ∧
    ProjectStatus.name ProjectStatus.design ∉
      ["discovery", "planning", "execution", "validation", "documentation",
       "deployed", "paused"] := by
  decide

/-- C3 (amended): every Project's status is one of the seven values
{discovery, design, implementation, validation, operation, completed,
paused}, and no `ProjectStatus` value lies outside this set. -/
theorem projectStatus_seven_values (s : ProjectStatus) :
    s ∈ allProjectStatuses ∧
    s.name ∈ ["discovery", "design", "implementation", "validation",
              "operation", "completed", "paused"] := by
  cases s <;> exact ⟨by decide, by decide⟩

/-- C4: submitting the same qualifying trigger condition 5 times inside
the dedup window (each match within the window of its predecessor)
yields exactly one escalation notification and a single `TriggerEvent`
whose `occurrence_count` is 5, with `last_seen` extended to the final
match time. -/
theorem five_matches_one_notification (rule : TriggerRule) (project : Nat)
    (t₁ t₂ t₃ t₄ t₅ : Nat)
    (hch : chainedWithin rule.dedup_window t₁ [t₂, t₃, t₄, t₅]) :
    processAll rule project [t₁, t₂, t₃, t₄, t₅] ([], 0) =
      ([{ rule_id := rule.id, project_id := project, first_seen := t₁,
          last_seen := t₅, occurrence_count := 5, resolved := false }], 1) := by
  have h1 : processMatch rule project t₁ [] =
      ([{ rule_id := rule.id, project_id := project, first_seen := t₁,
          last_seen := t₁, occurrence_count := 1, resolved := false }], 1) := by
    simp [processMatch, bumpFirst]
  have hfold : processAll rule project [t₁, t₂, t₃, t₄, t₅] ([], 0) =
      processAll rule project [t₂, t₃, t₄, t₅]
        ([{ rule_id := rule.id, project_id := project, first_seen := t₁,
            last_seen := t₁, occurrence_count := 1, resolved := false }], 1) := by
    simp [processAll, h1]
  rw [hfold, processAll_single_event rule project [t₂, t₃, t₄, t₅] t₁ t₁ 1 1 hch]
  simp [lastTime]

theorem five_matches_one_notification_witness :
    chainedWithin (TriggerRule.mk 1 2 10).dedup_window 0 [1, 2, 3, 4] ∧
    processAll (TriggerRule.mk 1 2 10) 7 [0, 1, 2, 3, 4] ([], 0) =
      ([{ rule_id := 1, project_id := 7, first_seen := 0, last_seen := 4,
          occurrence_count := 5, resolved := false }], 1) :=
  ⟨by decide, five_matches_one_notification (TriggerRule.mk 1 2 10) 7 0 1 2 3 4 (by decide)⟩

/-- C5: a tick processes exactly the domain at the cursor position and
advances the cursor modulo the domain count; consequently over the four
guru domains with a 15-day cadence, any window of 4 consecutive ticks
(a 60-day window) refreshes each domain exactly once — never skipped,
never duplicated. -/
theorem rotation_each_domain_once (c k : Nat) (hc : c < 4) (d : String)
    (hd : d ∈ guruDomains) :
    tick guruDomains c = ((c + 1) % 4, guruDomains.get? c) ∧
    ([processedAt guruDomains c k, processedAt guruDomains c (k + 1),
      processedAt guruDomains c (k + 2), processedAt guruDomains c (k + 3)].count
        (some d)) = 1 := by
  constructor
  · rfl
  · have hmod : ∀ j, cursorIter 4 c j = (c + j) % 4 := cursorIter_eq_mod c hc
    have h1 : (c + (k + 1)) % 4 = ((c + k) % 4 + 1) % 4 := by
      rw [Nat.mod_add_mod, Nat.add_assoc]
    have h2 : (c + (k + 2)) % 4 = ((c + k) % 4 + 2) % 4 := by
      rw [Nat.mod_add_mod, Nat.add_assoc]
    have h3 : (c + (k + 3)) % 4 = ((c + k) % 4 + 3) % 4 := by
      rw [Nat.mod_add_mod, Nat.add_assoc]
    have hr : (c + k) % 4 < 4 := Nat.mod_lt _ (by norm_num)
    simp only [processedAt, show guruDomains.length = 4 from rfl, hmod, h1, h2, h3]
    obtain ⟨r, hrlt, hreq⟩ : ∃ r, r < 4 ∧ (c + k) % 4 = r := ⟨(c + k) % 4, hr, rfl⟩
    rw [hreq]
    simp only [guruDomains] at hd ⊢
    interval_cases r <;> fin_cases hd <;> decide

theorem rotation_each_domain_once_witness :
    (0 : Nat) < 4 ∧ "frontend" ∈ guruDomains ∧
    (tick guruDomains 0 = ((0 + 1) % 4, guruDomains.get? 0) ∧
     ([processedAt guruDomains 0 0, processedAt guruDomains 0 (0 + 1),
       processedAt guruDomains 0 (0 + 2), processedAt guruDomains 0 (0 + 3)].count
         (some "frontend")) = 1) :=
  ⟨by decide, by decide,
   rotation_each_domain_once 0 0 (by decide) "frontend" (by decide)⟩

/-- C6: a correction step reaches `applied` only from `confirmed`, the
only transitions are proposed→confirmed, proposed→rejected and
confirmed→applied, and a step taken while the request is `proposed`
leaves the task graph unchanged. -/
theorem correction_confirmation_protocol {G : Type} (a b : CorrectionState) (g g' : G)
    (h : CorrectionStep (a, g) (b, g')) :
    ((a = .proposed ∧ b = .confirmed ∧ g' = g) ∨
     (a = .proposed ∧ b = .rejected ∧ g' = g) ∨
     (a = .confirmed ∧ b = .applied)) ∧
    (b = .applied → a = .confirmed) ∧
    (a = .proposed → g' = g) := by
  cases h with
  | confirm g => exact ⟨Or.inl ⟨rfl, rfl, rfl⟩, by simp, fun _ => rfl⟩
  | reject g => exact ⟨Or.inr (Or.inl ⟨rfl, rfl, rfl⟩), by simp, fun _ => rfl⟩
  | applyChange g g' => exact ⟨Or.inr (Or.inr ⟨rfl, rfl⟩), fun _ => rfl, by simp⟩

theorem correction_confirmation_protocol_witness :
    ((CorrectionState.proposed = .proposed ∧ CorrectionState.confirmed = .confirmed ∧
        (3 : Nat) = 3) ∨
     (CorrectionState.proposed = .proposed ∧ CorrectionState.confirmed = .rejected ∧
        (3 : Nat) = 3) ∨
     (CorrectionState.proposed = .confirmed ∧ CorrectionState.confirmed = .applied)) ∧
    (CorrectionState.confirmed = .applied → CorrectionState.proposed = .confirmed) ∧
    (CorrectionState.proposed = .proposed → (3 : Nat) = 3) :=
  correction_confirmation_protocol .proposed .confirmed 3 3 (CorrectionStep.confirm 3)

/-- C7: capability/backend resolution is deterministic — two invocations
of `resolve` with the same task tags and the same worker-availability
snapshot return the same ranked candidate list, and the `llm_router`
task_type→provider mapping is a fixed pure table. -/
theorem resolution_deterministic (tags : List String)
    (avail₁ avail₂ : List Worker) (h : avail₁ = avail₂) (task_type : String) :
    resolve tags avail₁ = resolve tags avail₂ ∧
    llmRouterMap task_type = llmRouterMap task_type := by
  subst h
  exact ⟨rfl, rfl⟩

theorem resolution_deterministic_witness :
    resolve ["frontend"] [] = resolve ["frontend"] [] ∧
    llmRouterMap "code_generation" = llmRouterMap "code_generation" :=
  resolution_deterministic ["frontend"] [] [] rfl "code_generation"

/-- A chat state holding a message whose id collides with the temp id
`temp-0` that `sendMessage` generates at `Date.now() = 0`. -/
def collidingChatState : ChatState :=
  { messages := [{ id := "temp-0", role := .user, content := "earlier", timestamp := "t" }],
    isSending := false, suggestions := [], error := none }

/-- The optimistic user message `sendMessage` appends, with its
`temp-${Date.now()}` id. -/
def tempMessage (message : String) (now : Nat) : ChatMessage :=
  { id := "temp-" ++ toString now, role := .user, content := message,
    timestamp := toString now }

/-- C8 counterexample: if an existing message's id equals the generated
temp id (two sends in the same millisecond, the first succeeded), a
failed send filters out the old message too, so the messages list does
not return to its pre-send value. -/
theorem sendMessage_error_can_drop_older_message :
    (sendMessage (some "p") "hi" 0 (.error "boom") collidingChatState).messages ≠
      collidingChatState.messages := by
  decide

/-- C8 (amended): when the api call rejects and the generated temp id
`temp-${Date.now()}` does not collide with any existing message id,
`sendMessage` removes exactly the optimistically appended user message,
so the messages list equals its pre-send value and `error` is set to
the failure message. -/
theorem sendMessage_error_restores_messages (pid : String) (message : String)
    (now : Nat) (e : String) (s : ChatState)
    (htrim : jsTrim message ≠ "")
    (hfresh : ∀ m ∈ s.messages, m.id ≠ "temp-" ++ toString now) :
    (sendMessage (some pid) message now (.error e) s).messages = s.messages ∧
    (sendMessage (some pid) message now (.error e) s).error = some e := by
  have hsend : sendMessage (some pid) message now (.error e) s =
      { messages := (s.messages ++ [tempMessage message now]).filter
          (fun m => m.id != "temp-" ++ toString now),
        isSending := false, suggestions := s.suggestions, error := some e } := by
    unfold sendMessage
    rw [if_neg (by simp [htrim])]
    rfl
  have h1 : s.messages.filter (fun m => m.id != "temp-" ++ toString now) = s.messages :=
    List.filter_eq_self.mpr (fun m hm => by simpa using hfresh m hm)
  have h2 : ([tempMessage message now]).filter
      (fun m => m.id != "temp-" ++ toString now) = [] := by
    simp [tempMessage]
  rw [hsend]
  refine ⟨?_, rfl⟩
  show (s.messages ++ [tempMessage message now]).filter
      (fun m => m.id != "temp-" ++ toString now) = s.messages
  rw [List.filter_append, h1, h2, List.append_nil]

/-- A chat state with one already-delivered message, id distinct from
`temp-0`. -/
def sampleChatState : ChatState :=
  { messages := [{ id := "m1", role := .assistant, content := "hello", timestamp := "t0" }],
    isSending := false, suggestions := [], error := none }

theorem sendMessage_error_restores_messages_witness :
    (jsTrim "hi" ≠ "") ∧
    (∀ m ∈ sampleChatState.messages, m.id ≠ "temp-" ++ toString 0) ∧
    ((sendMessage (some "p") "hi" 0 (.error "boom") sampleChatState).messages =
        sampleChatState.messages ∧
     (sendMessage (some "p") "hi" 0 (.error "boom") sampleChatState).error = some "boom") :=
  ⟨by decide, by decide,
   sendMessage_error_restores_messages "p" "hi" 0 "boom" sampleChatState
     (by decide) (by decide)⟩

/-- C9: no agent surviving `AgentGrid`'s `visibleDepartments` filter is
named `primo` or `guru_supervisor` — the coordinator and the knowledge
supervisor never appear in the client-visible team grid. -/
theorem visibleDepartments_excludes_supervisors (agents : List AgentInfo)
    (a : AgentInfo) (h : a ∈ visibleDepartments agents) :
    a.name ≠ "primo" ∧ a.name ≠ "guru_supervisor" := by
  unfold visibleDepartments at h
  have hp := List.of_mem_filter h
  have hmem : a.name ∉ (["primo", "guru_supervisor"] : List String) := by
    simpa using hp
  exact ⟨fun hn => hmem (by simp [hn]), fun hn => hmem (by simp [hn])⟩

/-- The coordinator's entry in an agents array. -/
def primoInfo : AgentInfo :=
  { name := "primo", agentAlias := "Primo", status := .working,
    current_task := none, progress := 50, last_activity := none }

/-- A department entry in an agents array. -/
def frontiInfo : AgentInfo :=
  { name := "fronti_frontend", agentAlias := "Fronti", status := .idle,
    current_task := none, progress := 0, last_activity := none }

theorem visibleDepartments_excludes_supervisors_witness :
    frontiInfo ∈ visibleDepartments [primoInfo, frontiInfo] ∧
    (frontiInfo.name ≠ "primo" ∧ frontiInfo.name ≠ "guru_supervisor") :=
  ⟨by decide,
   visibleDepartments_excludes_supervisors [primoInfo, frontiInfo] frontiInfo (by decide)⟩

/-- C10: `loadMoreActivities` is a no-op — no request, no state change —
when activities is null or `has_more` is false; when it does fetch, the
previously loaded items are preserved unchanged and in order as a prefix
of the updated list, with the newly fetched page appended after them. -/
theorem loadMoreActivities_noop_and_append
    (fetch : Nat → Nat → Except String ActivitiesResponse)
    (a b moreActivities : ActivitiesResponse)
    (hb : b.has_more = false)
    (hm : a.has_more = true)
    (hf : fetch 10 (a.offset + a.limit) = .ok moreActivities) :
    loadMoreActivities none fetch = (false, none) ∧
    loadMoreActivities (some b) fetch = (false, some b) ∧
    loadMoreActivities (some a) fetch =
      (true, some { moreActivities with items := a.items ++ moreActivities.items }) := by
  refine ⟨rfl, ?_, ?_⟩
  · simp [loadMoreActivities, hb]
  · simp [loadMoreActivities, hm, hf]

/-- A loaded first page of one activity with more available. -/
def firstPage : ActivitiesResponse :=
  { items := [{ id := "a1", timestamp := "t1", agent := "Fronti", action := "commit",
                description := "d1", category := .code }],
    total := 2, offset := 0, limit := 10, has_more := true }

/-- The next fetched page. -/
def secondPage : ActivitiesResponse :=
  { items := [{ id := "a2", timestamp := "t2", agent := "Baky", action := "deploy",
                description := "d2", category := .deployment }],
    total := 2, offset := 10, limit := 10, has_more := false }

theorem loadMoreActivities_noop_and_append_witness :
    secondPage.has_more = false ∧ firstPage.has_more = true ∧
    (fun _ _ => (.ok secondPage : Except String ActivitiesResponse)) 10
        (firstPage.offset + firstPage.limit) = .ok secondPage ∧
    (loadMoreActivities none (fun _ _ => .ok secondPage) = (false, none) ∧
     loadMoreActivities (some secondPage) (fun _ _ => .ok secondPage) =
        (false, some secondPage) ∧
     loadMoreActivities (some firstPage) (fun _ _ => .ok secondPage) =
        (true, some { secondPage with items := firstPage.items ++ secondPage.items })) :=
  ⟨rfl, rfl, rfl,
   loadMoreActivities_noop_and_append (fun _ _ => .ok secondPage)
     firstPage secondPage secondPage rfl rfl rfl⟩

end GriPro
